import Mathlib

/-!
Verification development for the retail-dashboard data pipeline (`src/app.py`).

The pipeline is shallowly embedded: a raw CSV file is a `RawTable` (a column
header list plus rows of cells), machine floats are modelled by `FVal`
(an IEEE-like value: a finite rational, a signed infinity, or NaN), and the
fallible steps (pandas raising `KeyError` during column selection) are
modelled with `Except`.  Every definition is translated from the source
file; the `...Spec` definitions near the end restate spec-side wording for
refinement comparisons.
-/

/-- A CSV cell as seen after `pd.read_csv`: missing (NaN), a string, or a
number. -/
inductive Cell where
  | na : Cell
  | str : String → Cell
  | num : ℚ → Cell
deriving DecidableEq, Repr

/-- One raw tabular file: ordered column names and rows of cells. -/
structure RawTable where
  cols : List String
  rows : List (List Cell)
deriving DecidableEq, Repr

/-- Canonical long-format record produced by normalization
(`Year`, `Brand`, `Retail`). -/
structure YearlyRecord where
  year : ℤ
  brand : String
  retail : ℚ
deriving DecidableEq, Repr

/-- IEEE-like scalar: NaN, a signed infinity, or a finite value (modelled as
an exact rational).  Mirrors the numpy float semantics the source relies on
(`np.nan` sentinels, division by zero producing signed infinity). -/
inductive FVal where
  | nan : FVal
  | inf : Bool → FVal
  | val : ℚ → FVal
deriving DecidableEq, Repr

/-- Float subtraction with NaN/infinity propagation (numpy semantics). -/
def fsub : FVal → FVal → FVal
  | .val a, .val b => .val (a - b)
  | .inf p, .val _ => .inf p
  | .val _, .inf p => .inf (!p)
  | .inf p, .inf q => if p == q then .nan else .inf p
  | _, _ => .nan

/-- Float addition with NaN/infinity propagation (numpy semantics). -/
def fadd : FVal → FVal → FVal
  | .val a, .val b => .val (a + b)
  | .inf p, .val _ => .inf p
  | .val _, .inf p => .inf p
  | .inf p, .inf q => if p == q then .inf p else .nan
  | _, _ => .nan

/-- Float division: division of a nonzero finite value by zero yields a
signed infinity, `0/0` yields NaN (numpy semantics). -/
def fdiv : FVal → FVal → FVal
  | .val a, .val b =>
    if b = 0 then
      if 0 < a then .inf true
      else if a < 0 then .inf false
      else .nan
    else .val (a / b)
  | .inf p, .val b => if 0 ≤ b then .inf p else .inf (!p)
  | .val _, .inf _ => .val 0
  | .inf _, .inf _ => .nan
  | _, _ => .nan

/-- Float multiplication with NaN/infinity propagation (numpy semantics). -/
def fmul : FVal → FVal → FVal
  | .val a, .val b => .val (a * b)
  | .inf p, .val b => if 0 < b then .inf p else if b < 0 then .inf (!p) else .nan
  | .val a, .inf p => if 0 < a then .inf p else if a < 0 then .inf (!p) else .nan
  | .inf p, .inf q => .inf (p == q)
  | _, _ => .nan

/-- `np.where(cond, a, b)`: both branches are already evaluated values; the
condition merely selects one. -/
def npWhere (c : Bool) (a b : FVal) : FVal := if c then a else b

/-- ASCII digit test, the `\d` of the source's regular expressions. -/
def isDig (c : Char) : Bool := decide (48 ≤ c.toNat ∧ c.toNat ≤ 57)

/-- Whitespace class of Python's `\s` (ASCII part). -/
def isWs (c : Char) : Bool :=
  decide (c = ' ' ∨ c = '\t' ∨ c = '\n' ∨ c = '\r' ∨ c = '\x0b' ∨ c = '\x0c')

/-- Collapse each whitespace run to a single space
(`re.sub(r"\s+", " ", ·)`); `prevWs` records whether the previous character
was part of a run already replaced. -/
def collapseWs (prevWs : Bool) : List Char → List Char
  | [] => []
  | c :: cs =>
    if isWs c then
      if prevWs then collapseWs true cs else ' ' :: collapseWs true cs
    else c :: collapseWs false cs

/-- `_clean_colname`: collapse whitespace runs, then strip. -/
def clean_colname (s : String) : String := (String.mk (collapseWs false s.data)).trim

/-- Does `pat` occur at the head of the character list? -/
def matchAt : List Char → List Char → Bool
  | [], _ => true
  | _ :: _, [] => false
  | p :: ps, c :: cs => p == c && matchAt ps cs

/-- Substring occurrence over character lists. -/
def hasSubstr (pat : List Char) : List Char → Bool
  | [] => pat.isEmpty
  | c :: cs => matchAt pat (c :: cs) || hasSubstr pat cs

/-- `pat in s` on Python strings. -/
def strContains (s pat : String) : Bool := hasSubstr pat.data s.data

/-- Try to read the regex `20\d{2}` at the head of the list. -/
def year4At : List Char → Option ℤ
  | '2' :: '0' :: c :: d :: _ =>
    if isDig c && isDig d then
      some (2000 + 10 * ((c.toNat : ℤ) - 48) + ((d.toNat : ℤ) - 48))
    else none
  | _ => none

/-- `re.search(r"(20\d{2})", ·)`: first (leftmost) match wins. -/
def scanYear : List Char → Option ℤ
  | [] => none
  | c0 :: rest => (year4At (c0 :: rest)).orElse (fun _ => scanYear rest)

/-- `detect_year_from_filename`: scan the file name for `20\d{2}`. -/
def detect_year_from_filename (name : String) : Option ℤ := scanYear name.data

/-- `detect_year_from_columns`: first column header containing `20\d{2}`. -/
def detect_year_from_columns : List String → Option ℤ
  | [] => none
  | c :: cs => (scanYear c.data).orElse (fun _ => detect_year_from_columns cs)

/-- `pick_brand_col`: first column containing "brand" (case-insensitive),
else the first column, else undefined. -/
def pick_brand_col (cols : List String) : Option String :=
  match cols.find? (fun c => strContains c.toLower "brand") with
  | some c => some c
  | none => cols.head?

/-- `pick_retail_col`: first column containing "retail" (case-insensitive),
else the second column, else undefined. -/
def pick_retail_col (cols : List String) : Option String :=
  match cols.find? (fun c => strContains c.toLower "retail") with
  | some c => some c
  | none => cols[1]?

/-- Accumulate the decimal digits of `cs` onto `acc`; fails on a non-digit. -/
def natOfDigits (acc : ℕ) : List Char → Option ℕ
  | [] => some acc
  | c :: cs => if isDig c then natOfDigits (acc * 10 + (c.toNat - 48)) cs else none

/-- Parse an optionally signed decimal numeral (integer part, optional
fractional part), as accepted by `pd.to_numeric` on strings.  Scientific
notation is out of the model; no claim depends on it. -/
def parseQ (s : String) : Option ℚ :=
  match s.trim.data with
  | [] => none
  | cs =>
    let signAndRest : Bool × List Char :=
      match cs with
      | '-' :: rest => (true, rest)
      | '+' :: rest => (false, rest)
      | _ => (false, cs)
    let ip := signAndRest.2.takeWhile isDig
    let rest := signAndRest.2.dropWhile isDig
    let mag : Option ℚ :=
      match rest with
      | [] =>
        if ip.isEmpty then none
        else (natOfDigits 0 ip).map (fun n => (n : ℚ))
      | '.' :: frac =>
        if ip.isEmpty && frac.isEmpty then none
        else
          match natOfDigits 0 ip, natOfDigits 0 frac with
          | some n, some f => some ((n : ℚ) + (f : ℚ) / ((10 : ℚ) ^ frac.length))
          | _, _ => none
      | _ => none
    mag.map (fun q => if signAndRest.1 then -q else q)

/-- `pd.to_numeric(·, errors="coerce")` on one cell: numbers pass through,
numeric strings parse, everything else coerces to NaN (`none`). -/
def toNumeric : Cell → Option ℚ
  | .na => none
  | .num q => some q
  | .str s => parseQ s

/-- String image of a rational, standing in for Python's `str(float)`;
only injectivity-on-simple-values and non-emptiness matter to the model. -/
def ratStr (q : ℚ) : String :=
  toString q.num ++ (if q.den == 1 then "" else "/" ++ toString q.den)

/-- `.astype(str)` on one cell: NaN becomes the literal string `"nan"`. -/
def cellAstype : Cell → String
  | .na => "nan"
  | .str s => s
  | .num q => ratStr q

/-- Look a cell up by column name (first occurrence), NaN when the row is
ragged or the name is absent. -/
def cellAt (cols : List String) (row : List Cell) (name : String) : Cell :=
  match cols.indexOf? name with
  | some i => row.getD i Cell.na
  | none => Cell.na

/-- `load_one_csv` (minus file IO, which is outside the model): clean every
column name. -/
def load_one_csv (t : RawTable) : RawTable :=
  { cols := t.cols.map clean_colname, rows := t.rows }

/-- `to_long`: select the brand/retail columns, trim brands
(`astype(str).str.strip()`), coerce retail to numeric, stamp the year, and
drop rows whose retail failed coercion.  Selecting with an unresolved
column (`df[[c, None]]`) raises `KeyError` in pandas, modelled as
`Except.error`. -/
def to_long (df : RawTable) (year : ℤ) : Except Unit (List YearlyRecord) :=
  match pick_brand_col df.cols, pick_retail_col df.cols with
  | some brandCol, some retailCol =>
    let sel := df.rows.map (fun row => (cellAt df.cols row brandCol, cellAt df.cols row retailCol))
    let branded := sel.map (fun p => ((cellAstype p.1).trim, p.2))
    let coerced := branded.map (fun p => (p.1, toNumeric p.2))
    let stamped := coerced.map (fun p => (year, p.1, p.2))
    let kept := stamped.filter (fun t => t.2.2.isSome)
    Except.ok (kept.map (fun t => { year := t.1, brand := t.2.1, retail := t.2.2.getD 0 }))
  | _, _ => Except.error ()

/-- A folder is a list of (file name, raw table) pairs. -/
abbrev Folder := List (String × RawTable)

/-- Ordering used to sort candidate files by name (`sorted(glob(...))`). -/
def fileLe (a b : String × RawTable) : Prop := a.1 < b.1 ∨ a.1 = b.1

instance : DecidableRel fileLe := fun a b =>
  inferInstanceAs (Decidable (a.1 < b.1 ∨ a.1 = b.1))

/-- `folder.glob("*_data.csv")`, falling back to `folder.glob("*.csv")`,
each sorted by file name. -/
def globCsv (folder : Folder) : Folder :=
  let a := List.insertionSort fileLe (folder.filter (fun f => f.1.endsWith "_data.csv"))
  if a.isEmpty then List.insertionSort fileLe (folder.filter (fun f => f.1.endsWith ".csv"))
  else a

/-- Year resolution for one file: file name first, column headers second
(`detect_year_from_filename(...) or detect_year_from_columns(...)`). -/
def resolveYear (f : String × RawTable) : Option ℤ :=
  (detect_year_from_filename f.1).orElse
    (fun _ => detect_year_from_columns (load_one_csv f.2).cols)

/-- Per-file loop of `load_dataset_from_folder`: normalize each file whose
year resolves, accumulating the parts and the used file names. -/
def loadParts : Folder → Except Unit (List (List YearlyRecord) × List String)
  | [] => Except.ok ([], [])
  | f :: fs =>
    match resolveYear f with
    | none => loadParts fs
    | some y =>
      match to_long (load_one_csv f.2) y with
      | Except.error e => Except.error e
      | Except.ok part =>
        match loadParts fs with
        | Except.error e => Except.error e
        | Except.ok (ps, us) => Except.ok (part :: ps, f.1 :: us)

/-- Final ordering of the merged dataset: year ascending, retail descending
(`sort_values(["Year", "Retail"], ascending=[True, False])`). -/
def dataOrd (a b : YearlyRecord) : Prop :=
  a.year < b.year ∨ (a.year = b.year ∧ b.retail ≤ a.retail)

instance : DecidableRel dataOrd := fun a b =>
  inferInstanceAs (Decidable (a.year < b.year ∨ (a.year = b.year ∧ b.retail ≤ a.retail)))

/-- `load_dataset_from_folder`: glob, per-file normalize, and if no part was
collected return the empty dataset with an empty used-file list, else the
concatenation sorted by (year asc, retail desc). -/
def load_dataset_from_folder (folder : Folder) : Except Unit (List YearlyRecord × List String) :=
  match loadParts (globCsv folder) with
  | Except.error e => Except.error e
  | Except.ok (parts, used) =>
    if parts.isEmpty then Except.ok ([], [])
    else Except.ok (List.insertionSort dataOrd parts.flatten, used)

/-- Brand-selection mode of the sidebar radio. -/
inductive BrandMode where
  | top : BrandMode
  | manual : BrandMode
deriving DecidableEq, Repr

/-- One row of the filtered, metric-annotated view (`df_f`). -/
structure VRow where
  year : ℤ
  brand : String
  retail : ℚ
  totalYear : ℚ
  share : FVal
  yoyChange : FVal
  yoyGrowth : FVal
deriving DecidableEq, Repr

/-- Keep-first deduplication with an accumulator of already-seen elements
(pandas `.unique()` keeps first occurrences). -/
def dedupAux {α : Type} [DecidableEq α] (seen : List α) : List α → List α
  | [] => []
  | x :: xs => if x ∈ seen then dedupAux seen xs else x :: dedupAux (x :: seen) xs

/-- Keep-first deduplication (`.unique().tolist()`). -/
def dedupKeepFirst {α : Type} [DecidableEq α] (l : List α) : List α := dedupAux [] l

/-- `sorted(df["Year"].unique().tolist())`: the distinct years ascending. -/
def yearsOf (df : List YearlyRecord) : List ℤ :=
  List.insertionSort (· ≤ ·) (dedupKeepFirst (df.map (·.year)))

/-- Year filter: `df[df["Year"].isin(selected_years)]`. -/
def yearFiltered (df : List YearlyRecord) (ys : List ℤ) : List YearlyRecord :=
  df.filter (fun r => ys.contains r.year)

/-- `x.nlargest(n, "Retail")`: the first `n` rows of a stable descending
sort by retail (ties keep the earlier row, pandas `keep="first"`). -/
def nlargest (n : ℕ) (rows : List YearlyRecord) : List YearlyRecord :=
  (List.insertionSort (fun a b => b.retail ≤ a.retail) rows).take n

/-- The distinct years of the filtered frame, ascending: the group keys of
`groupby("Year")`. -/
def groupYearKeys (rows : List YearlyRecord) : List ℤ :=
  List.insertionSort (· ≤ ·) (dedupKeepFirst (rows.map (·.year)))

/-- The union of per-year top-`n` brand names, first occurrences kept:
`groupby("Year").apply(lambda x: x.nlargest(topn, "Retail"))["Brand"]
.unique().tolist()`. -/
def topBrandList (n : ℕ) (dff : List YearlyRecord) : List String :=
  dedupKeepFirst
    ((((groupYearKeys dff).map
        (fun y => nlargest n (dff.filter (fun r => r.year == y)))).flatten).map (·.brand))

/-- Brand-selection step: top mode filters to the per-year top-`n` union;
manual mode filters to the explicit list, except that an empty list applies
no filter at all (`if manual_brands:`). -/
def applyBrandFilter (mode : BrandMode) (n : ℕ) (manualBrands : List String)
    (dff : List YearlyRecord) : List YearlyRecord :=
  match mode with
  | .top => dff.filter (fun r => (topBrandList n dff).contains r.brand)
  | .manual =>
    if manualBrands.isEmpty then dff
    else dff.filter (fun r => manualBrands.contains r.brand)

/-- `total_by_year`: sum of retail per year over the (filtered) frame. -/
def totByYear (rows : List YearlyRecord) (y : ℤ) : ℚ :=
  ((rows.filter (fun r => r.year == y)).map (·.retail)).sum

/-- Annotate one record with its year total and share
(`np.where(TotalYear > 0, Retail / TotalYear * 100, np.nan)`); the YoY
columns start as NaN. -/
def mkRow (dff2 : List YearlyRecord) (r : YearlyRecord) : VRow :=
  { year := r.year, brand := r.brand, retail := r.retail,
    totalYear := totByYear dff2 r.year,
    share := npWhere (decide (0 < totByYear dff2 r.year))
      (fmul (fdiv (.val r.retail) (.val (totByYear dff2 r.year))) (.val 100)) .nan,
    yoyChange := .nan, yoyGrowth := .nan }

/-- One cell of `pivot_table(index="Brand", columns="Year", values="Retail",
aggfunc="sum")` over the full dataset: NaN when the brand has no row that
year, else the sum. -/
def pivotF (df : List YearlyRecord) (b : String) (y : ℤ) : FVal :=
  let cellRows := df.filter (fun r => r.brand == b && r.year == y)
  if cellRows.isEmpty then .nan else .val ((cellRows.map (·.retail)).sum)

/-- The `change` series of the YoY loop: `pivot_all[y] - pivot_all[y-1]`
looked up per brand. -/
def changeF (df : List YearlyRecord) (y : ℤ) (b : String) : FVal :=
  fsub (pivotF df b y) (pivotF df b (y - 1))

/-- The `growth` series of the YoY loop: `(change / pivot_all[y-1]) * 100`
looked up per brand. -/
def growthF (df : List YearlyRecord) (y : ℤ) (b : String) : FVal :=
  fmul (fdiv (changeF df y b) (pivotF df b (y - 1))) (.val 100)

/-- The YoY attachment loop: guarded by at least two known years, iterate
over `years[1:]`, and when both `y` and `y-1` are pivot columns overwrite
the YoY cells of the view rows of year `y` with the mapped series. -/
def attachYoY (df : List YearlyRecord) (rows : List VRow) : List VRow :=
  if 2 ≤ (yearsOf df).length then
    ((yearsOf df).drop 1).foldl
      (fun rs y =>
        if (y - 1) ∈ yearsOf df ∧ y ∈ yearsOf df then
          rs.map (fun r =>
            if r.year == y then
              { r with yoyChange := changeF df y r.brand, yoyGrowth := growthF df y r.brand }
            else r)
        else rs)
      rows
  else rows

/-- The whole filter-and-annotate pass (source lines 164–197): year filter,
brand filter, share annotation from the filtered totals, then the YoY
attachment from the full dataset's pivot. -/
def buildView (df : List YearlyRecord) (ys : List ℤ) (mode : BrandMode)
    (n : ℕ) (manualBrands : List String) : List VRow :=
  let dff := yearFiltered df ys
  let dff2 := applyBrandFilter mode n manualBrands dff
  attachYoY df (dff2.map (mkRow dff2))

/-- Forget the derived columns of a view row. -/
def toRec (r : VRow) : YearlyRecord :=
  { year := r.year, brand := r.brand, retail := r.retail }

/-- Spec-side restatement of the YoY change for refinement comparison:
defined directly from the full dataset's pivot whenever both `Y` and `Y-1`
are pivot years, independent of any filter. -/
def yoyChangeSpec (df : List YearlyRecord) (b : String) (y : ℤ) : FVal :=
  if (y - 1) ∈ yearsOf df ∧ y ∈ yearsOf df then changeF df y b else .nan

/-- Spec-side restatement of the YoY growth, as for `yoyChangeSpec`. -/
def yoyGrowthSpec (df : List YearlyRecord) (b : String) (y : ℤ) : FVal :=
  if (y - 1) ∈ yearsOf df ∧ y ∈ yearsOf df then growthF df y b else .nan

/-- Sum a list of float values (`Series.sum` over already-computed cells). -/
def fsum (l : List FVal) : FVal := l.foldr fadd (.val 0)

/-- The per-row YoY overwrite performed by the loop body for year `y`. -/
def yoyUpd (df : List YearlyRecord) (y : ℤ) (r : VRow) : VRow :=
  { r with yoyChange := changeF df y r.brand, yoyGrowth := growthF df y r.brand }

/-- Per-row form of one iteration of the YoY loop. -/
def gRow (df : List YearlyRecord) (y : ℤ) (r : VRow) : VRow :=
  if (y - 1) ∈ yearsOf df ∧ y ∈ yearsOf df then
    if r.year == y then yoyUpd df y r else r
  else r

/-- Per-row form of the whole YoY loop. -/
def finalRow (df : List YearlyRecord) (r : VRow) : VRow :=
  if r.year ∈ (yearsOf df).drop 1 ∧ (r.year - 1) ∈ yearsOf df ∧ r.year ∈ yearsOf df then
    yoyUpd df r.year r
  else r

/-- Concrete dataset: brand "A" present in 2020 with value exactly 0 and in
2021 with value 5 (exercises the zero-baseline YoY case). -/
def dfC1 : List YearlyRecord := [⟨2020, "A", 0⟩, ⟨2021, "A", 5⟩]

/-- Concrete dataset: a single 2020 row for brand "A". -/
def dfC2 : List YearlyRecord := [⟨2020, "A", 1⟩]

/-- Concrete raw table: one row with a whitespace-only brand and one row
with a missing brand, both with valid quantities. -/
def tblC3 : RawTable :=
  ⟨["Brand", "Retail"], [[Cell.str "  ", Cell.num 5], [Cell.na, Cell.num 7]]⟩

/-- Concrete folder: a single year-named file whose only row has a
non-numeric quantity, so it contributes no records. -/
def folderC4 : Folder :=
  [("2019_data.csv", ⟨["Brand", "Retail"], [[Cell.str "A", Cell.str "x"]]⟩)]

/-- Concrete folder: a single year-named one-column file. -/
def folderC5 : Folder := [("2020_data.csv", ⟨["A"], [[Cell.str "B"]]⟩)]

/-- Concrete dataset: brand "A" in two consecutive years. -/
def dfC6 : List YearlyRecord := [⟨2020, "A", 2⟩, ⟨2021, "A", 3⟩]

/-- The 2021 row of the view over `dfC6` (all years, top-5 filter). -/
def vrowC6 : VRow :=
  { year := 2021, brand := "A", retail := 3, totalYear := 3,
    share := .val 100, yoyChange := .val 1, yoyGrowth := .val 50 }

/-- Concrete dataset: a single 2020 row. -/
def dfC7 : List YearlyRecord := [⟨2020, "A", 4⟩]

/-- The single row of the view over `dfC7`. -/
def vrowC7 : VRow :=
  { year := 2020, brand := "A", retail := 4, totalYear := 4,
    share := .val 100, yoyChange := .nan, yoyGrowth := .nan }

/-- Concrete dataset: two 2020 brands with total 4. -/
def dfC8 : List YearlyRecord := [⟨2020, "A", 3⟩, ⟨2020, "B", 1⟩]

/-- Concrete dataset: two 2020 brands for the top-N filter. -/
def dfC9 : List YearlyRecord := [⟨2020, "A", 5⟩, ⟨2020, "B", 2⟩]

/-- Concrete folder: one well-formed year-named file. -/
def folderC10 : Folder :=
  [("2020_data.csv", ⟨["Brand", "Retail"], [[Cell.str "A", Cell.num 7]]⟩)]

theorem mem_dedupAux {α : Type} [DecidableEq α] (l : List α) :
    ∀ (seen : List α) (a : α), a ∈ dedupAux seen l ↔ a ∈ l ∧ a ∉ seen := by
  induction l with
  | nil => intro seen a; simp [dedupAux]
  | cons x xs ih =>
    intro seen a
    by_cases hx : x ∈ seen
    · rw [show dedupAux seen (x :: xs) = dedupAux seen xs from by simp [dedupAux, hx]]
      rw [ih]
      simp only [List.mem_cons]
      constructor
      · rintro ⟨h1, h2⟩; exact ⟨Or.inr h1, h2⟩
      · rintro ⟨h1 | h1, h2⟩
        · subst h1; exact absurd hx h2
        · exact ⟨h1, h2⟩
    · rw [show dedupAux seen (x :: xs) = x :: dedupAux (x :: seen) xs from by simp [dedupAux, hx]]
      simp only [List.mem_cons, ih]
      constructor
      · rintro (rfl | ⟨h1, h2⟩)
        · exact ⟨Or.inl rfl, hx⟩
        · refine ⟨Or.inr h1, fun hc => h2 (Or.inr hc)⟩
      · rintro ⟨rfl | h1, h2⟩
        · exact Or.inl rfl
        · by_cases hax : a = x
          · exact Or.inl hax
          · exact Or.inr ⟨h1, by simp [hax, h2]⟩

theorem nodup_dedupAux {α : Type} [DecidableEq α] (l : List α) :
    ∀ seen : List α, (dedupAux seen l).Nodup := by
  induction l with
  | nil => intro seen; simp [dedupAux]
  | cons x xs ih =>
    intro seen
    by_cases hx : x ∈ seen
    · simpa [dedupAux, hx] using ih seen
    · rw [show dedupAux seen (x :: xs) = x :: dedupAux (x :: seen) xs from by simp [dedupAux, hx]]
      refine List.nodup_cons.mpr ⟨?_, ih _⟩
      intro hmem
      exact ((mem_dedupAux xs _ x).mp hmem).2 (List.mem_cons_self x seen)

theorem mem_dedupKeepFirst {α : Type} [DecidableEq α] {l : List α} {a : α} :
    a ∈ dedupKeepFirst l ↔ a ∈ l := by
  rw [dedupKeepFirst, mem_dedupAux]; simp

theorem mem_yearsOf {df : List YearlyRecord} {a : ℤ} :
    a ∈ yearsOf df ↔ a ∈ df.map (·.year) := by
  rw [yearsOf, (List.perm_insertionSort _ _).mem_iff, mem_dedupKeepFirst]

theorem nodup_yearsOf (df : List YearlyRecord) : (yearsOf df).Nodup :=
  (List.perm_insertionSort _ _).nodup_iff.mpr (nodup_dedupAux _ _)

theorem sorted_yearsOf (df : List YearlyRecord) :
    List.Sorted (fun a b : ℤ => a ≤ b) (yearsOf df) :=
  List.sorted_insertionSort _ _

theorem mem_drop_one_of_lt {l : List ℤ} (hs : List.Sorted (fun a b : ℤ => a ≤ b) l)
    {a b : ℤ} (ha : a ∈ l) (hb : b ∈ l) (hba : b < a) : a ∈ l.drop 1 := by
  cases l with
  | nil => simp at ha
  | cons x t =>
    have hdrop : (x :: t).drop 1 = t := rfl
    rw [hdrop]
    rcases List.mem_cons.mp ha with rfl | hat
    · rcases List.mem_cons.mp hb with rfl | hbt
      · exact absurd hba (lt_irrefl _)
      · have := (List.sorted_cons.mp hs).1 b hbt
        omega
    · exact hat

theorem foldl_map_comm {α β : Type} (g : β → α → α) (l : List β) :
    ∀ rows : List α,
      l.foldl (fun rs y => rs.map (g y)) rows =
        rows.map (fun r => l.foldl (fun r y => g y r) r) := by
  induction l with
  | nil => intro rows; simp
  | cons y l ih =>
    intro rows
    simp only [List.foldl_cons]
    rw [ih, List.map_map]
    rfl

theorem yoyUpd_year (df : List YearlyRecord) (y : ℤ) (r : VRow) :
    (yoyUpd df y r).year = r.year := rfl

theorem rowFold_eq (df : List YearlyRecord) :
    ∀ (l : List ℤ), l.Nodup → ∀ r : VRow,
      l.foldl (fun r y => gRow df y r) r =
        if r.year ∈ l ∧ (r.year - 1) ∈ yearsOf df ∧ r.year ∈ yearsOf df then
          yoyUpd df r.year r
        else r := by
  intro l
  induction l with
  | nil => intro _ r; simp
  | cons y l ih =>
    intro hnd r
    have hndl : l.Nodup := (List.nodup_cons.mp hnd).2
    have hyl : y ∉ l := (List.nodup_cons.mp hnd).1
    simp only [List.foldl_cons]
    by_cases hg : (y - 1) ∈ yearsOf df ∧ y ∈ yearsOf df
    · by_cases hy : r.year = y
      · have hstep : gRow df y r = yoyUpd df y r := by
          simp [gRow, hg, hy]
        rw [hstep, ih hndl]
        have hyy : (yoyUpd df y r).year = r.year := rfl
        rw [if_neg, if_pos]
        · rw [hy]
        · rw [hy]; exact ⟨List.mem_cons_self y l, hy ▸ hg⟩
        · rw [hyy, hy]; intro hc; exact hyl hc.1
      · have hstep : gRow df y r = r := by
          simp [gRow, hg, hy]
        rw [hstep, ih hndl]
        have : (r.year ∈ y :: l) ↔ (r.year ∈ l) := by
          simp [List.mem_cons, hy]
        rw [if_congr (iff_of_eq (congrArg _ rfl)) rfl rfl]
        simp only [this]
    · have hstep : gRow df y r = r := by simp [gRow, hg]
      rw [hstep, ih hndl]
      by_cases hy : r.year = y
      · subst hy
        rw [if_neg, if_neg]
        · intro hc; exact hg hc.2
        · intro hc; exact hyl hc.1
      · have : (r.year ∈ y :: l) ↔ (r.year ∈ l) := by simp [List.mem_cons, hy]
        simp only [this]

theorem step_eq_map (df : List YearlyRecord) (y : ℤ) (rs : List VRow) :
    (if (y - 1) ∈ yearsOf df ∧ y ∈ yearsOf df then
        rs.map (fun r =>
          if r.year == y then
            { r with yoyChange := changeF df y r.brand, yoyGrowth := growthF df y r.brand }
          else r)
      else rs) = rs.map (gRow df y) := by
  by_cases h : (y - 1) ∈ yearsOf df ∧ y ∈ yearsOf df
  · rw [if_pos h]
    apply List.map_congr_left
    intro r _
    simp only [gRow, yoyUpd, h.1, h.2, and_self, if_true]
  · rw [if_neg h]
    have h1 : rs.map (gRow df y) = rs.map (fun r => r) :=
      List.map_congr_left (fun r _ => by simp [gRow, h])
    rw [h1]
    simp

theorem length_le_one_cases {l : List ℤ} (h : ¬ 2 ≤ l.length) :
    l = [] ∨ ∃ x, l = [x] := by
  cases l with
  | nil => exact Or.inl rfl
  | cons x t =>
    cases t with
    | nil => exact Or.inr ⟨x, rfl⟩
    | cons y u => simp at h

theorem finalRow_eq_id_of_small {df : List YearlyRecord} (h : ¬ 2 ≤ (yearsOf df).length)
    (r : VRow) : finalRow df r = r := by
  unfold finalRow
  rcases length_le_one_cases h with he | ⟨x, he⟩
  · rw [if_neg]; rw [he]; simp
  · rw [if_neg]; rw [he]
    intro hc
    rcases hc with ⟨_, h1, h2⟩
    simp at h1 h2
    omega

theorem attachYoY_eq_map (df : List YearlyRecord) (rows : List VRow) :
    attachYoY df rows = rows.map (finalRow df) := by
  unfold attachYoY
  by_cases hlen : 2 ≤ (yearsOf df).length
  · simp only [hlen, if_true]
    rw [show (fun (rs : List VRow) (y : ℤ) =>
          if (y - 1) ∈ yearsOf df ∧ y ∈ yearsOf df then
            rs.map (fun r =>
              if r.year == y then
                { r with yoyChange := changeF df y r.brand, yoyGrowth := growthF df y r.brand }
              else r)
          else rs) = (fun rs y => rs.map (gRow df y)) from
      funext fun rs => funext fun y => step_eq_map df y rs]
    rw [foldl_map_comm]
    apply List.map_congr_left
    intro r _
    have hnd : ((yearsOf df).drop 1).Nodup :=
      (List.drop_sublist 1 (yearsOf df)).nodup (nodup_yearsOf df)
    rw [rowFold_eq df _ hnd r]
    rfl
  · simp only [hlen, if_false]
    have h1 : rows.map (finalRow df) = rows.map (fun r => r) :=
      List.map_congr_left (fun r _ => finalRow_eq_id_of_small hlen r)
    rw [h1]
    simp

theorem finalRow_year (df : List YearlyRecord) (r : VRow) :
    (finalRow df r).year = r.year := by
  unfold finalRow; split <;> rfl

theorem finalRow_brand (df : List YearlyRecord) (r : VRow) :
    (finalRow df r).brand = r.brand := by
  unfold finalRow; split <;> rfl

theorem finalRow_retail (df : List YearlyRecord) (r : VRow) :
    (finalRow df r).retail = r.retail := by
  unfold finalRow; split <;> rfl

theorem finalRow_totalYear (df : List YearlyRecord) (r : VRow) :
    (finalRow df r).totalYear = r.totalYear := by
  unfold finalRow; split <;> rfl

theorem finalRow_share (df : List YearlyRecord) (r : VRow) :
    (finalRow df r).share = r.share := by
  unfold finalRow; split <;> rfl

theorem toRec_finalRow_mkRow (df dff2 : List YearlyRecord) (r0 : YearlyRecord) :
    toRec (finalRow df (mkRow dff2 r0)) = r0 := by
  unfold toRec mkRow
  rw [finalRow_year, finalRow_brand, finalRow_retail]

theorem mem_buildView {df : List YearlyRecord} {ys : List ℤ} {mode : BrandMode}
    {n : ℕ} {mb : List String} {r : VRow} :
    r ∈ buildView df ys mode n mb ↔
      ∃ r0 ∈ applyBrandFilter mode n mb (yearFiltered df ys),
        r = finalRow df (mkRow (applyBrandFilter mode n mb (yearFiltered df ys)) r0) := by
  unfold buildView
  rw [attachYoY_eq_map, List.map_map]
  simp only [List.mem_map, Function.comp_apply, eq_comm]

theorem buildView_toRec (df : List YearlyRecord) (ys : List ℤ) (mode : BrandMode)
    (n : ℕ) (mb : List String) :
    (buildView df ys mode n mb).map toRec =
      applyBrandFilter mode n mb (yearFiltered df ys) := by
  unfold buildView
  rw [attachYoY_eq_map, List.map_map, List.map_map]
  have h1 : ∀ r0 ∈ applyBrandFilter mode n mb (yearFiltered df ys),
      (toRec ∘ (finalRow df ∘ mkRow (applyBrandFilter mode n mb (yearFiltered df ys)))) r0 = r0 :=
    fun r0 _ => toRec_finalRow_mkRow _ _ r0
  calc (applyBrandFilter mode n mb (yearFiltered df ys)).map _
      = (applyBrandFilter mode n mb (yearFiltered df ys)).map (fun r0 => r0) :=
        List.map_congr_left h1
    _ = _ := by simp

theorem mem_of_applyBrandFilter {mode : BrandMode} {n : ℕ} {mb : List String}
    {dff : List YearlyRecord} {r0 : YearlyRecord}
    (h : r0 ∈ applyBrandFilter mode n mb dff) : r0 ∈ dff := by
  unfold applyBrandFilter at h
  cases mode with
  | top => exact (List.mem_filter.mp h).1
  | manual =>
    by_cases he : mb.isEmpty
    · simpa [he] using h
    · rw [if_neg he] at h
      exact (List.mem_filter.mp h).1

theorem mem_of_yearFiltered {df : List YearlyRecord} {ys : List ℤ}
    {r0 : YearlyRecord} (h : r0 ∈ yearFiltered df ys) : r0 ∈ df :=
  (List.mem_filter.mp h).1

theorem year_mem_yearsOf_of_mem {df : List YearlyRecord} {r0 : YearlyRecord}
    (h : r0 ∈ df) : r0.year ∈ yearsOf df :=
  mem_yearsOf.mpr (List.mem_map.mpr ⟨r0, h, rfl⟩)

theorem finalRow_yoy (df : List YearlyRecord) (r : VRow)
    (hyr : r.year ∈ yearsOf df) (hc : r.yoyChange = .nan) (hg : r.yoyGrowth = .nan) :
    (finalRow df r).yoyChange = yoyChangeSpec df r.brand r.year ∧
    (finalRow df r).yoyGrowth = yoyGrowthSpec df r.brand r.year := by
  by_cases hprev : (r.year - 1) ∈ yearsOf df
  · have hdrop : r.year ∈ (yearsOf df).drop 1 :=
      mem_drop_one_of_lt (sorted_yearsOf df) hyr hprev (by omega)
    unfold finalRow
    rw [if_pos ⟨hdrop, hprev, hyr⟩]
    unfold yoyChangeSpec yoyGrowthSpec
    rw [if_pos ⟨hprev, hyr⟩, if_pos ⟨hprev, hyr⟩]
    exact ⟨rfl, rfl⟩
  · unfold finalRow
    rw [if_neg (fun hcc => hprev hcc.2.1)]
    unfold yoyChangeSpec yoyGrowthSpec
    rw [if_neg (fun hcc => hprev hcc.1), if_neg (fun hcc => hprev hcc.1)]
    exact ⟨hc, hg⟩

/-- C6: YoY Change and GrowthPct attached to the filtered view are computed
from the brand-by-year pivot over the entire unified dataset, independent
of the active year and brand filters: every view row's YoY values equal the
values derived directly from the full dataset's pivot. -/
theorem yoy_from_global_pivot (df : List YearlyRecord) (ys : List ℤ)
    (mode : BrandMode) (n : ℕ) (mb : List String) (r : VRow)
    (hr : r ∈ buildView df ys mode n mb) :
    r.yoyChange = yoyChangeSpec df r.brand r.year ∧
    r.yoyGrowth = yoyGrowthSpec df r.brand r.year := by
  rcases mem_buildView.mp hr with ⟨r0, hr0, rfl⟩
  have hmem : r0 ∈ df := mem_of_yearFiltered (mem_of_applyBrandFilter hr0)
  rw [finalRow_brand, finalRow_year]
  exact finalRow_yoy df _ (year_mem_yearsOf_of_mem hmem) rfl rfl

/-- C6 witness at a concrete dataset and filter state. -/
theorem yoy_from_global_pivot_witness :
    vrowC6 ∈ buildView dfC6 [2020, 2021] BrandMode.top 5 [] ∧
    vrowC6.yoyChange = yoyChangeSpec dfC6 vrowC6.brand vrowC6.year ∧
    vrowC6.yoyGrowth = yoyGrowthSpec dfC6 vrowC6.brand vrowC6.year := by
  have hv : buildView dfC6 [2020, 2021] BrandMode.top 5 [] =
      [{ year := 2020, brand := "A", retail := 2, totalYear := 2, share := .val 100,
         yoyChange := .nan, yoyGrowth := .nan }, vrowC6] := by
    with_unfolding_all rfl
  have hmem : vrowC6 ∈ buildView dfC6 [2020, 2021] BrandMode.top 5 [] := by
    rw [hv]; exact List.mem_cons_of_mem _ (List.mem_cons_self _ _)
  exact ⟨hmem, yoy_from_global_pivot dfC6 [2020, 2021] BrandMode.top 5 [] vrowC6 hmem⟩

theorem share_formula_pos {q t : ℚ} (ht : 0 < t) :
    npWhere (decide (0 < t)) (fmul (fdiv (.val q) (.val t)) (.val 100)) .nan
      = .val (q / t * 100) := by
  rw [npWhere, if_pos (by simpa using ht)]
  rw [show fdiv (.val q) (.val t) = .val (q / t) from by
    simp only [fdiv]; rw [if_neg (ne_of_gt ht)]]
  simp only [fmul]

theorem share_formula_zero {q t : ℚ} (ht : ¬ 0 < t) :
    npWhere (decide (0 < t)) (fmul (fdiv (.val q) (.val t)) (.val 100)) .nan
      = .nan := by
  rw [npWhere, if_neg (by simpa using ht)]

theorem share_formula_not_inf (q t : ℚ) (b : Bool) :
    npWhere (decide (0 < t)) (fmul (fdiv (.val q) (.val t)) (.val 100)) .nan
      ≠ .inf b := by
  by_cases ht : 0 < t
  · rw [share_formula_pos ht]; simp
  · rw [share_formula_zero ht]; simp

/-- C7: for every row of the filtered view, Share equals
`Quantity / YearTotal * 100` when the row's year total is strictly
positive; it is NaN (undefined) when the year total is zero; and it is
never an infinity. -/
theorem share_defined_iff_positive_total (df : List YearlyRecord) (ys : List ℤ)
    (mode : BrandMode) (n : ℕ) (mb : List String) (r : VRow)
    (hr : r ∈ buildView df ys mode n mb) :
    (0 < r.totalYear → r.share = FVal.val (r.retail / r.totalYear * 100)) ∧
    (r.totalYear = 0 → r.share = FVal.nan) ∧
    (∀ b : Bool, r.share ≠ FVal.inf b) := by
  rcases mem_buildView.mp hr with ⟨r0, _, rfl⟩
  rw [finalRow_share, finalRow_totalYear, finalRow_retail]
  refine ⟨fun h => share_formula_pos h, fun h0 => ?_, fun b => ?_⟩
  · refine share_formula_zero ?_
    have h0' : totByYear (applyBrandFilter mode n mb (yearFiltered df ys)) r0.year = 0 := h0
    rw [h0']
    exact lt_irrefl 0
  · exact share_formula_not_inf _ _ b

/-- C7 witness at a concrete dataset and filter state. -/
theorem share_defined_iff_positive_total_witness :
    vrowC7 ∈ buildView dfC7 [2020] BrandMode.top 5 [] ∧
    (0 < vrowC7.totalYear → vrowC7.share = FVal.val (vrowC7.retail / vrowC7.totalYear * 100)) ∧
    (vrowC7.totalYear = 0 → vrowC7.share = FVal.nan) ∧
    (∀ b : Bool, vrowC7.share ≠ FVal.inf b) := by
  have hv : buildView dfC7 [2020] BrandMode.top 5 [] = [vrowC7] := by
    with_unfolding_all rfl
  have hmem : vrowC7 ∈ buildView dfC7 [2020] BrandMode.top 5 [] := by
    rw [hv]; exact List.mem_cons_self _ _
  exact ⟨hmem, share_defined_iff_positive_total dfC7 [2020] BrandMode.top 5 [] vrowC7 hmem⟩

/-- C2 counterexample: with manual brand selection and an empty explicit
list, the view over a one-row dataset has one row, not zero rows — the
claimed empty result is refuted. -/
theorem manual_empty_not_empty_view :
    (buildView dfC2 [2020] BrandMode.manual 5 []).length = 1 := by
  with_unfolding_all rfl

/-- C2 amended: in manual mode an empty explicit brand list applies no
brand filter at all: the filtered view contains exactly the year-filtered
dataset (all brands), not an empty view. -/
theorem manual_empty_keeps_year_slice (df : List YearlyRecord) (ys : List ℤ) (n : ℕ) :
    (buildView df ys BrandMode.manual n []).map toRec = yearFiltered df ys := by
  rw [buildView_toRec]
  rfl

theorem length_dedupAux_le {α : Type} [DecidableEq α] (l : List α) :
    ∀ seen : List α, (dedupAux seen l).length ≤ l.length := by
  induction l with
  | nil => intro _; simp [dedupAux]
  | cons x xs ih =>
    intro seen
    by_cases hx : x ∈ seen
    · rw [show dedupAux seen (x :: xs) = dedupAux seen xs from by simp [dedupAux, hx]]
      exact le_trans (ih seen) (by simp)
    · rw [show dedupAux seen (x :: xs) = x :: dedupAux (x :: seen) xs from by
        simp [dedupAux, hx]]
      simpa using ih (x :: seen)

theorem mem_topBrandList {n : ℕ} {dff : List YearlyRecord} {b : String} {y : ℤ}
    (hy : y ∈ groupYearKeys dff)
    (hb : b ∈ (nlargest n (dff.filter (fun r => r.year == y))).map (·.brand)) :
    b ∈ topBrandList n dff := by
  unfold topBrandList
  rw [mem_dedupKeepFirst]
  rcases List.mem_map.mp hb with ⟨rr, hrr, hrb⟩
  refine List.mem_map.mpr ⟨rr, ?_, hrb⟩
  refine List.mem_flatten.mpr ⟨nlargest n (dff.filter (fun r => r.year == y)), ?_, hrr⟩
  exact List.mem_map.mpr ⟨y, hy, rfl⟩

/-- C9: top-N brand selection ranks rows within each selected year by
quantity descending, keeps at most N brands per year, unions the brand
names across years, and the view keeps every year-filtered row whose brand
is in that union — a brand top-N in one selected year appears in every
selected year's slice it has data for, with no per-year re-filtering. -/
theorem topn_union_filter_semantics (df : List YearlyRecord) (ys : List ℤ) (n : ℕ) :
    (∀ y : ℤ,
      (dedupKeepFirst
        ((nlargest n ((yearFiltered df ys).filter (fun r => r.year == y))).map
          (·.brand))).length ≤ n) ∧
    ((buildView df ys BrandMode.top n []).map toRec =
      (yearFiltered df ys).filter
        (fun r => (topBrandList n (yearFiltered df ys)).contains r.brand)) ∧
    (∀ (y : ℤ) (b : String) (r : YearlyRecord),
      y ∈ groupYearKeys (yearFiltered df ys) →
      b ∈ (nlargest n ((yearFiltered df ys).filter (fun r => r.year == y))).map (·.brand) →
      r ∈ yearFiltered df ys → r.brand = b →
      r ∈ (buildView df ys BrandMode.top n []).map toRec) := by
  have h2 : (buildView df ys BrandMode.top n []).map toRec =
      (yearFiltered df ys).filter
        (fun r => (topBrandList n (yearFiltered df ys)).contains r.brand) := by
    rw [buildView_toRec]
    rfl
  refine ⟨fun y => ?_, h2, fun y b r hy hb hr hrb => ?_⟩
  · calc (dedupKeepFirst _).length
        ≤ ((nlargest n ((yearFiltered df ys).filter (fun r => r.year == y))).map
            (·.brand)).length := length_dedupAux_le _ _
      _ = (nlargest n ((yearFiltered df ys).filter (fun r => r.year == y))).length := by
          rw [List.length_map]
      _ ≤ n := by
          unfold nlargest
          exact List.length_take_le n _
  · rw [h2]
    refine List.mem_filter.mpr ⟨hr, ?_⟩
    have hmem : b ∈ topBrandList n (yearFiltered df ys) := mem_topBrandList hy hb
    rw [hrb]
    simp [List.contains, hmem]

/-- C9 witness at a concrete dataset: brand "A" is top-1 of 2020 and its
row survives the filter. -/
theorem topn_union_filter_semantics_witness :
    (2020 : ℤ) ∈ groupYearKeys (yearFiltered dfC9 [2020]) ∧
    "A" ∈ (nlargest 1 ((yearFiltered dfC9 [2020]).filter (fun r => r.year == 2020))).map
      (·.brand) ∧
    (⟨2020, "A", 5⟩ : YearlyRecord) ∈ yearFiltered dfC9 [2020] ∧
    (⟨2020, "A", 5⟩ : YearlyRecord) ∈ (buildView dfC9 [2020] BrandMode.top 1 []).map toRec := by
  have h1 : groupYearKeys (yearFiltered dfC9 [2020]) = [2020] := by
    with_unfolding_all rfl
  have h2 : (nlargest 1 ((yearFiltered dfC9 [2020]).filter (fun r => r.year == 2020))).map
      (·.brand) = ["A"] := by
    with_unfolding_all rfl
  have h3 : yearFiltered dfC9 [2020] = dfC9 := by
    with_unfolding_all rfl
  refine ⟨?_, ?_, ?_, ?_⟩
  · rw [h1]; exact List.mem_cons_self _ _
  · rw [h2]; exact List.mem_cons_self _ _
  · rw [h3]; exact List.mem_cons_self _ _
  · exact (topn_union_filter_semantics dfC9 [2020] 1).2.2 2020 "A" ⟨2020, "A", 5⟩
      (by rw [h1]; exact List.mem_cons_self _ _)
      (by rw [h2]; exact List.mem_cons_self _ _)
      (by rw [h3]; exact List.mem_cons_self _ _) rfl

theorem fsum_map_val {α : Type} (f : α → ℚ) (l : List α) :
    fsum (l.map (fun x => FVal.val (f x))) = FVal.val ((l.map f).sum) := by
  induction l with
  | nil => rfl
  | cons x xs ih =>
    simp only [List.map_cons, List.sum_cons]
    show fadd (FVal.val (f x)) (fsum (xs.map (fun x => FVal.val (f x)))) = _
    rw [ih]
    rfl

theorem sum_div_mul (l : List YearlyRecord) (T : ℚ) :
    (l.map (fun r => r.retail / T * 100)).sum = (l.map (·.retail)).sum / T * 100 := by
  induction l with
  | nil => simp
  | cons x xs ih =>
    simp only [List.map_cons, List.sum_cons, ih]
    ring

/-- C8: for any year whose total quantity is strictly positive, the shares
over the unfiltered dataset (all years selected, no brand restriction) sum
to exactly 100 for that year. -/
theorem share_sums_to_hundred (df : List YearlyRecord) (n : ℕ) (y : ℤ)
    (h : 0 < totByYear df y) :
    fsum (((buildView df (yearsOf df) BrandMode.manual n []).filter
        (fun r => r.year == y)).map (·.share)) = FVal.val 100 := by
  have hid : yearFiltered df (yearsOf df) = df := by
    apply List.filter_eq_self.mpr
    intro r hr
    simpa [List.contains] using year_mem_yearsOf_of_mem hr
  have habf : applyBrandFilter BrandMode.manual n [] (yearFiltered df (yearsOf df)) = df := by
    show yearFiltered df (yearsOf df) = df
    exact hid
  unfold buildView
  rw [attachYoY_eq_map, List.map_map, habf]
  rw [List.filter_map, List.map_map]
  have hp : df.filter ((fun r => r.year == y) ∘ (finalRow df ∘ mkRow df)) =
      df.filter (fun r => r.year == y) := by
    apply List.filter_congr
    intro r0 _
    show ((finalRow df (mkRow df r0)).year == y) = (r0.year == y)
    rw [finalRow_year]
    rfl
  rw [hp]
  have hs : (df.filter (fun r => r.year == y)).map
        ((·.share) ∘ (finalRow df ∘ mkRow df)) =
      (df.filter (fun r => r.year == y)).map
        (fun r0 => FVal.val (r0.retail / totByYear df y * 100)) := by
    apply List.map_congr_left
    intro r0 hr0
    have hy0 : r0.year = y := by
      have hb := (List.mem_filter.mp hr0).2
      simpa using hb
    show (finalRow df (mkRow df r0)).share = _
    rw [finalRow_share]
    show npWhere (decide (0 < totByYear df r0.year))
        (fmul (fdiv (.val r0.retail) (.val (totByYear df r0.year))) (.val 100)) .nan = _
    rw [hy0]
    exact share_formula_pos h
  rw [hs, fsum_map_val, sum_div_mul]
  have hT : ((df.filter (fun r => r.year == y)).map (·.retail)).sum = totByYear df y := rfl
  rw [hT, div_self (ne_of_gt h), one_mul]

/-- C8 witness at a concrete two-brand dataset. -/
theorem share_sums_to_hundred_witness :
    0 < totByYear dfC8 2020 ∧
    fsum (((buildView dfC8 (yearsOf dfC8) BrandMode.manual 5 []).filter
        (fun r => r.year == 2020)).map (·.share)) = FVal.val 100 := by
  have h4 : totByYear dfC8 2020 = 4 := by with_unfolding_all rfl
  have hpos : 0 < totByYear dfC8 2020 := by rw [h4]; norm_num
  exact ⟨hpos, share_sums_to_hundred dfC8 5 2020 hpos⟩

theorem to_long_pipeline (cols : List String) (bc rc : String) (y : ℤ) :
    ∀ rows : List (List Cell),
      ((((((rows.map (fun row => (cellAt cols row bc, cellAt cols row rc))).map
            (fun p => ((cellAstype p.1).trim, p.2))).map
            (fun p => (p.1, toNumeric p.2))).map
            (fun p => (y, p.1, p.2))).filter
            (fun t => t.2.2.isSome)).map
            (fun t => ({ year := t.1, brand := t.2.1, retail := t.2.2.getD 0 } : YearlyRecord)))
        = rows.filterMap (fun row =>
            (toNumeric (cellAt cols row rc)).map
              (fun q => ⟨y, (cellAstype (cellAt cols row bc)).trim, q⟩)) := by
  intro rows
  induction rows with
  | nil => rfl
  | cons row rest ih =>
    simp only [List.map_cons, List.filterMap_cons]
    cases hq : toNumeric (cellAt cols row rc) with
    | none =>
      rw [List.filter_cons_of_neg (by simp [hq]), ih]
      rfl
    | some q =>
      rw [List.filter_cons_of_pos (by simp [hq]), List.map_cons, ih]
      rfl

theorem to_long_ok_shape (df : RawTable) (y : ℤ) (bc rc : String)
    (hb : pick_brand_col df.cols = some bc) (hrc : pick_retail_col df.cols = some rc) :
    to_long df y = Except.ok (df.rows.filterMap (fun row =>
      (toNumeric (cellAt df.cols row rc)).map
        (fun q => ⟨y, (cellAstype (cellAt df.cols row bc)).trim, q⟩))) := by
  unfold to_long
  rw [hb, hrc]
  exact congrArg Except.ok (to_long_pipeline df.cols bc rc y df.rows)

/-- C3 counterexample: a whitespace-only brand cell and a missing (NaN)
brand cell both survive normalization — the first as the empty string, the
second as the placeholder string "nan" — refuting the claim that such rows
are dropped. -/
theorem to_long_keeps_empty_brand :
    to_long tblC3 2020 = Except.ok [⟨2020, "", 5⟩, ⟨2020, "nan", 7⟩] := by
  with_unfolding_all rfl

/-- C3 amended: `to_long` keeps exactly the rows whose quantity coerces to
a number; the brand is trimmed but never filtered — an all-whitespace brand
yields the empty string and a missing brand the placeholder string "nan". -/
theorem to_long_rows_characterization (df : RawTable) (y : ℤ) (bc rc : String)
    (hb : pick_brand_col df.cols = some bc) (hrc : pick_retail_col df.cols = some rc) :
    to_long df y = Except.ok (df.rows.filterMap (fun row =>
      (toNumeric (cellAt df.cols row rc)).map
        (fun q => ⟨y, (cellAstype (cellAt df.cols row bc)).trim, q⟩))) :=
  to_long_ok_shape df y bc rc hb hrc

/-- C3 witness at the concrete table. -/
theorem to_long_rows_characterization_witness :
    pick_brand_col tblC3.cols = some "Brand" ∧
    pick_retail_col tblC3.cols = some "Retail" ∧
    to_long tblC3 2021 = Except.ok (tblC3.rows.filterMap (fun row =>
      (toNumeric (cellAt tblC3.cols row "Retail")).map
        (fun q => ⟨2021, (cellAstype (cellAt tblC3.cols row "Brand")).trim, q⟩))) :=
  ⟨by with_unfolding_all rfl, by with_unfolding_all rfl,
   to_long_rows_characterization tblC3 2021 "Brand" "Retail"
     (by with_unfolding_all rfl) (by with_unfolding_all rfl)⟩

theorem loadParts_ok_used (files : Folder) :
    ∀ parts used, loadParts files = Except.ok (parts, used) →
      used = (files.filter (fun f => (resolveYear f).isSome)).map (·.1) ∧
      (parts = [] ↔ used = []) := by
  induction files with
  | nil =>
    intro parts used h
    simp only [loadParts, Except.ok.injEq, Prod.mk.injEq] at h
    obtain ⟨h1, h2⟩ := h
    subst h1
    subst h2
    simp
  | cons f fs ih =>
    intro parts used h
    cases hy : resolveYear f with
    | none =>
      simp only [loadParts, hy] at h
      rw [List.filter_cons_of_neg (by simp [hy])]
      exact ih parts used h
    | some y =>
      simp only [loadParts, hy] at h
      cases htl : to_long (load_one_csv f.2) y with
      | error e => simp [htl] at h
      | ok part =>
        simp only [htl] at h
        cases hfs : loadParts fs with
        | error e => simp [hfs] at h
        | ok pu =>
          obtain ⟨ps, us⟩ := pu
          simp only [hfs, Except.ok.injEq, Prod.mk.injEq] at h
          obtain ⟨hp, hu⟩ := h
          obtain ⟨hu1, _⟩ := ih ps us hfs
          subst hp
          subst hu
          rw [List.filter_cons_of_pos (by simp [hy]), List.map_cons, ← hu1]
          exact ⟨rfl, by simp⟩

/-- C4 amended: the used-files report contains exactly the files whose year
resolves (from name or headers), whether or not they yield any valid
record; the used list is empty only in the no-part case, where the dataset
is empty as well. -/
theorem used_files_exactly_year_resolved (folder : Folder)
    (data : List YearlyRecord) (used : List String)
    (h : load_dataset_from_folder folder = Except.ok (data, used)) :
    used = ((globCsv folder).filter (fun f => (resolveYear f).isSome)).map (·.1) ∧
    (used = [] → data = []) := by
  unfold load_dataset_from_folder at h
  cases hlp : loadParts (globCsv folder) with
  | error e => simp [hlp] at h
  | ok pu =>
    obtain ⟨parts, us⟩ := pu
    simp only [hlp] at h
    obtain ⟨hu1, hu2⟩ := loadParts_ok_used (globCsv folder) parts us hlp
    by_cases hpe : parts.isEmpty
    · rw [if_pos hpe] at h
      simp only [Except.ok.injEq, Prod.mk.injEq] at h
      obtain ⟨h1, h2⟩ := h
      have hpnil : parts = [] := by
        cases parts with
        | nil => rfl
        | cons a b => simp at hpe
      have husnil : us = [] := hu2.mp hpnil
      rw [← h2, ← hu1, husnil]
      exact ⟨rfl, fun _ => h1.symm⟩
    · rw [if_neg hpe] at h
      simp only [Except.ok.injEq, Prod.mk.injEq] at h
      obtain ⟨h1, h2⟩ := h
      subst h2
      refine ⟨hu1, fun hnil => ?_⟩
      exact absurd (by simp [hu2.mpr hnil]) hpe

/-- C4 counterexample: `2019_data.csv` resolves a year but yields no rows
with valid quantities, yet it appears in the used-file list, and the
dataset is empty while the used list is not. -/
theorem used_files_includes_recordless_file :
    load_dataset_from_folder folderC4 = Except.ok ([], ["2019_data.csv"]) := by
  with_unfolding_all rfl

/-- C4 witness at the concrete folder. -/
theorem used_files_exactly_year_resolved_witness :
    load_dataset_from_folder folderC4 = Except.ok ([], ["2019_data.csv"]) ∧
    (["2019_data.csv"] =
      ((globCsv folderC4).filter (fun f => (resolveYear f).isSome)).map (·.1) ∧
    ((["2019_data.csv"] : List String) = [] → ([] : List YearlyRecord) = [])) :=
  ⟨by with_unfolding_all rfl,
   used_files_exactly_year_resolved folderC4 [] ["2019_data.csv"]
     (by with_unfolding_all rfl)⟩

theorem to_long_error_of_no_retail (df : RawTable) (y : ℤ)
    (h : pick_retail_col df.cols = none) : to_long df y = Except.error () := by
  unfold to_long
  rw [h]
  cases pick_brand_col df.cols <;> rfl

theorem loadParts_error_of_bad_file (files : Folder) :
    ∀ f ∈ files, (resolveYear f).isSome →
      pick_retail_col (load_one_csv f.2).cols = none →
      loadParts files = Except.error () := by
  induction files with
  | nil => intro f hf; simp at hf
  | cons g fs ih =>
    intro f hf hys hpick
    rcases List.mem_cons.mp hf with rfl | hf'
    · obtain ⟨y, hy⟩ := Option.isSome_iff_exists.mp hys
      simp only [loadParts, hy]
      rw [to_long_error_of_no_retail _ y hpick]
    · cases hy : resolveYear g with
      | none =>
        simp only [loadParts, hy]
        exact ih f hf' hys hpick
      | some yg =>
        simp only [loadParts, hy]
        cases htl : to_long (load_one_csv g.2) yg with
        | error e => simp [htl]
        | ok part =>
          simp only [htl]
          rw [ih f hf' hys hpick]

/-- C5 corrected: `pick_retail_col` itself never fails — with fewer than two
columns and no column named like "retail" it yields `none` — but the
normalization of such a file is not skipped: `to_long` raises (KeyError,
modelled as `Except.error`) when the quantity column is unresolved, and the
error propagates out of the folder merge. -/
theorem retail_col_none_and_error_propagation :
    (∀ cols : List String, cols.length < 2 →
      (∀ c ∈ cols, strContains c.toLower "retail" = false) →
      pick_retail_col cols = none) ∧
    (∀ (df : RawTable) (y : ℤ), pick_retail_col df.cols = none →
      to_long df y = Except.error ()) ∧
    (∀ (folder : Folder) (f : String × RawTable), f ∈ globCsv folder →
      (resolveYear f).isSome →
      pick_retail_col (load_one_csv f.2).cols = none →
      load_dataset_from_folder folder = Except.error ()) := by
  refine ⟨?_, fun df y h => to_long_error_of_no_retail df y h, ?_⟩
  · intro cols hlen hnone
    unfold pick_retail_col
    rw [show cols.find? (fun c => strContains c.toLower "retail") = none from
      List.find?_eq_none.mpr (fun c hc => by simp [hnone c hc])]
    cases cols with
    | nil => rfl
    | cons a t =>
      cases t with
      | nil => rfl
      | cons b u => simp only [List.length_cons] at hlen; omega
  · intro folder f hf hys hpick
    unfold load_dataset_from_folder
    rw [loadParts_error_of_bad_file (globCsv folder) f hf hys hpick]

/-- C5 counterexample: merging a folder whose single year-named file has
one column raises (the claim says it must not). -/
theorem one_column_file_merge_errors :
    load_dataset_from_folder folderC5 = Except.error () := by
  with_unfolding_all rfl

/-- C5 witness at the concrete one-column folder. -/
theorem retail_col_none_and_error_propagation_witness :
    ("2020_data.csv", (⟨["A"], [[Cell.str "B"]]⟩ : RawTable)) ∈ globCsv folderC5 ∧
    (resolveYear ("2020_data.csv", ⟨["A"], [[Cell.str "B"]]⟩)).isSome = true ∧
    pick_retail_col (load_one_csv (⟨["A"], [[Cell.str "B"]]⟩ : RawTable)).cols = none ∧
    load_dataset_from_folder folderC5 = Except.error () := by
  have hg : globCsv folderC5 = folderC5 := by with_unfolding_all rfl
  have hmem : ("2020_data.csv", (⟨["A"], [[Cell.str "B"]]⟩ : RawTable)) ∈ globCsv folderC5 := by
    rw [hg]; exact List.mem_cons_self _ _
  refine ⟨hmem, by with_unfolding_all rfl, by with_unfolding_all rfl, ?_⟩
  exact retail_col_none_and_error_propagation.2.2 folderC5 _ hmem
    (by with_unfolding_all rfl) (by with_unfolding_all rfl)

theorem year4At_bounds (cs : List Char) (y : ℤ) (h : year4At cs = some y) :
    2000 ≤ y ∧ y ≤ 2099 := by
  unfold year4At at h
  split at h
  · rename_i c d rest
    split at h
    · rename_i hdig
      simp only [Bool.and_eq_true, isDig, decide_eq_true_eq] at hdig
      injection h with h'
      omega
    · exact absurd h (by simp)
  · exact absurd h (by simp)

theorem scanYear_bounds (cs : List Char) :
    ∀ y : ℤ, scanYear cs = some y → 2000 ≤ y ∧ y ≤ 2099 := by
  induction cs with
  | nil => intro y h; simp [scanYear] at h
  | cons c0 rest ih =>
    intro y h
    rw [show scanYear (c0 :: rest) =
        (year4At (c0 :: rest)).orElse (fun _ => scanYear rest) from rfl] at h
    cases hy : year4At (c0 :: rest) with
    | some z =>
      rw [hy] at h
      simp only [Option.orElse, Option.some.injEq] at h
      exact h ▸ year4At_bounds _ z hy
    | none =>
      rw [hy] at h
      simp only [Option.orElse] at h
      exact ih y h

theorem detect_year_from_columns_bounds (cols : List String) :
    ∀ y : ℤ, detect_year_from_columns cols = some y → 2000 ≤ y ∧ y ≤ 2099 := by
  induction cols with
  | nil => intro y h; simp [detect_year_from_columns] at h
  | cons c cs ih =>
    intro y h
    rw [show detect_year_from_columns (c :: cs) =
        (scanYear c.data).orElse (fun _ => detect_year_from_columns cs) from rfl] at h
    cases hy : scanYear c.data with
    | some z =>
      rw [hy] at h
      simp only [Option.orElse, Option.some.injEq] at h
      exact h ▸ scanYear_bounds _ z hy
    | none =>
      rw [hy] at h
      simp only [Option.orElse] at h
      exact ih y h

theorem resolveYear_bounds (f : String × RawTable) (y : ℤ)
    (h : resolveYear f = some y) : 2000 ≤ y ∧ y ≤ 2099 := by
  unfold resolveYear at h
  cases hy : detect_year_from_filename f.1 with
  | some z =>
    rw [hy] at h
    simp only [Option.orElse, Option.some.injEq] at h
    exact h ▸ scanYear_bounds _ z hy
  | none =>
    rw [hy] at h
    simp only [Option.orElse] at h
    exact detect_year_from_columns_bounds _ y h

theorem to_long_year (df : RawTable) (y : ℤ) (out : List YearlyRecord)
    (h : to_long df y = Except.ok out) : ∀ r ∈ out, r.year = y := by
  intro r hr
  cases hb : pick_brand_col df.cols with
  | none =>
    unfold to_long at h
    rw [hb] at h
    simp at h
  | some bc =>
    cases hc : pick_retail_col df.cols with
    | none =>
      rw [to_long_error_of_no_retail df y hc] at h
      simp at h
    | some rc =>
      rw [to_long_ok_shape df y bc rc hb hc] at h
      simp only [Except.ok.injEq] at h
      subst h
      rcases List.mem_filterMap.mp hr with ⟨row, _, hrow⟩
      rcases Option.map_eq_some'.mp hrow with ⟨q, _, hq2⟩
      rw [← hq2]

theorem loadParts_bounds (files : Folder) :
    ∀ parts used, loadParts files = Except.ok (parts, used) →
      ∀ part ∈ parts, ∀ r ∈ part, 2000 ≤ r.year ∧ r.year ≤ 2099 := by
  induction files with
  | nil =>
    intro parts used h
    simp only [loadParts, Except.ok.injEq, Prod.mk.injEq] at h
    obtain ⟨h1, _⟩ := h
    subst h1
    intro part hpart
    simp at hpart
  | cons f fs ih =>
    intro parts used h
    cases hy : resolveYear f with
    | none =>
      simp only [loadParts, hy] at h
      exact ih _ _ h
    | some y =>
      simp only [loadParts, hy] at h
      cases htl : to_long (load_one_csv f.2) y with
      | error e => simp [htl] at h
      | ok part0 =>
        simp only [htl] at h
        cases hfs : loadParts fs with
        | error e => simp [hfs] at h
        | ok pu =>
          obtain ⟨ps, us⟩ := pu
          simp only [hfs, Except.ok.injEq, Prod.mk.injEq] at h
          obtain ⟨hp, _⟩ := h
          subst hp
          intro part hpart r hr
          rcases List.mem_cons.mp hpart with rfl | hpart'
          · have hyr : r.year = y := to_long_year _ y part htl r hr
            have := resolveYear_bounds f y hy
            omega
          · exact ih ps us hfs part hpart' r hr

/-- C10: every record in a successfully merged dataset has an integer year
in [2000, 2099], because a year is only ever produced by matching the
pattern "20" followed by two digits and every record is stamped with such
a year. -/
theorem year_range_invariant (folder : Folder) (data : List YearlyRecord)
    (used : List String) (h : load_dataset_from_folder folder = Except.ok (data, used))
    (r : YearlyRecord) (hr : r ∈ data) : 2000 ≤ r.year ∧ r.year ≤ 2099 := by
  unfold load_dataset_from_folder at h
  cases hlp : loadParts (globCsv folder) with
  | error e => simp [hlp] at h
  | ok pu =>
    obtain ⟨parts, us⟩ := pu
    simp only [hlp] at h
    by_cases hpe : parts.isEmpty
    · rw [if_pos hpe] at h
      simp only [Except.ok.injEq, Prod.mk.injEq] at h
      obtain ⟨h1, _⟩ := h
      rw [← h1] at hr
      simp at hr
    · rw [if_neg hpe] at h
      simp only [Except.ok.injEq, Prod.mk.injEq] at h
      obtain ⟨h1, _⟩ := h
      rw [← h1] at hr
      have hr' : r ∈ parts.flatten := (List.perm_insertionSort dataOrd _).mem_iff.mp hr
      rcases List.mem_flatten.mp hr' with ⟨part, hpart, hrp⟩
      exact loadParts_bounds _ _ _ hlp part hpart r hrp

/-- C10 witness at a concrete well-formed folder. -/
theorem year_range_invariant_witness :
    load_dataset_from_folder folderC10 = Except.ok ([⟨2020, "A", 7⟩], ["2020_data.csv"]) ∧
    (⟨2020, "A", 7⟩ : YearlyRecord) ∈ [(⟨2020, "A", 7⟩ : YearlyRecord)] ∧
    2000 ≤ (⟨2020, "A", 7⟩ : YearlyRecord).year ∧
    (⟨2020, "A", 7⟩ : YearlyRecord).year ≤ 2099 := by
  have hl : load_dataset_from_folder folderC10 =
      Except.ok ([⟨2020, "A", 7⟩], ["2020_data.csv"]) := by
    with_unfolding_all rfl
  refine ⟨hl, List.mem_cons_self _ _, ?_, ?_⟩
  · exact (year_range_invariant folderC10 _ _ hl _ (List.mem_cons_self _ _)).1
  · exact (year_range_invariant folderC10 _ _ hl _ (List.mem_cons_self _ _)).2

theorem fdiv_val_zero (q : ℚ) :
    fdiv (FVal.val q) (FVal.val 0) =
      (if 0 < q then FVal.inf true else if q < 0 then FVal.inf false else FVal.nan) := by
  simp [fdiv]

theorem fmul_inf_val100 (p : Bool) : fmul (FVal.inf p) (FVal.val 100) = FVal.inf p := by
  norm_num [fmul]

/-- C1 corrected: over the full pivot, for a year `y` whose predecessor is
also a pivot year: a brand absent from the pivot in `y-1` has NaN Change
and NaN GrowthPct; a brand present in `y-1` with value exactly zero and
present in `y` with value `q` has Change = `q`, while GrowthPct is `+inf`
when `q > 0`, `-inf` when `q < 0` and NaN when `q = 0` — never a finite
number. -/
theorem yoy_zero_and_absent_base (df : List YearlyRecord) (b : String) (y : ℤ)
    (_hy : y ∈ yearsOf df) (_hprev : y - 1 ∈ yearsOf df) :
    (pivotF df b (y - 1) = FVal.nan →
      changeF df y b = FVal.nan ∧ growthF df y b = FVal.nan) ∧
    (∀ q : ℚ, pivotF df b y = FVal.val q → pivotF df b (y - 1) = FVal.val 0 →
      changeF df y b = FVal.val q ∧
      growthF df y b =
        (if 0 < q then FVal.inf true else if q < 0 then FVal.inf false else FVal.nan) ∧
      (∀ x : ℚ, growthF df y b ≠ FVal.val x)) := by
  constructor
  · intro habs
    unfold growthF changeF
    rw [habs]
    cases hpy : pivotF df b y <;> exact ⟨rfl, rfl⟩
  · intro q hq hz
    unfold growthF changeF
    rw [hq, hz]
    have hc : fsub (FVal.val q) (FVal.val 0) = FVal.val q := by
      simp [fsub]
    rw [hc]
    refine ⟨rfl, ?_, ?_⟩
    · rw [fdiv_val_zero]
      by_cases h0 : 0 < q
      · rw [if_pos h0, fmul_inf_val100]
      · rw [if_neg h0]
        by_cases h1 : q < 0
        · rw [if_pos h1, fmul_inf_val100]
        · rw [if_neg h1]
          rfl
    · intro x
      rw [fdiv_val_zero]
      by_cases h0 : 0 < q
      · rw [if_pos h0, fmul_inf_val100]; simp
      · by_cases h1 : q < 0
        · rw [if_neg h0, if_pos h1, fmul_inf_val100]; simp
        · rw [if_neg h0, if_neg h1]; simp [fmul]

/-- C1 counterexample: in `dfC1`, brand "A" has 2020 pivot value exactly 0
(present-but-zero) and 2021 value 5; the computed GrowthPct is positive
infinity, refuting "GrowthPct is never infinity". -/
theorem growth_inf_when_zero_base :
    pivotF dfC1 "A" 2020 = FVal.val 0 ∧
    pivotF dfC1 "A" 2021 = FVal.val 5 ∧
    growthF dfC1 2021 "A" = FVal.inf true := by
  refine ⟨?_, ?_, ?_⟩ <;> with_unfolding_all rfl

/-- C1 witness at the concrete dataset, for both the absent-brand case and
the present-but-zero case. -/
theorem yoy_zero_and_absent_base_witness :
    (2021 : ℤ) ∈ yearsOf dfC1 ∧ (2021 : ℤ) - 1 ∈ yearsOf dfC1 ∧
    (changeF dfC1 2021 "Z" = FVal.nan ∧ growthF dfC1 2021 "Z" = FVal.nan) ∧
    (changeF dfC1 2021 "A" = FVal.val 5 ∧
      growthF dfC1 2021 "A" =
        (if (0 : ℚ) < 5 then FVal.inf true else if (5 : ℚ) < 0 then FVal.inf false
          else FVal.nan) ∧
      ∀ x : ℚ, growthF dfC1 2021 "A" ≠ FVal.val x) := by
  have hys : yearsOf dfC1 = [2020, 2021] := by with_unfolding_all rfl
  have h21 : (2021 : ℤ) ∈ yearsOf dfC1 := by rw [hys]; simp
  have h20 : (2021 : ℤ) - 1 ∈ yearsOf dfC1 := by rw [hys]; decide
  refine ⟨h21, h20, ?_, ?_⟩
  · exact (yoy_zero_and_absent_base dfC1 "Z" 2021 h21 h20).1 (by with_unfolding_all rfl)
  · exact (yoy_zero_and_absent_base dfC1 "A" 2021 h21 h20).2 5
      (by with_unfolding_all rfl) (by with_unfolding_all rfl)
